import Mathlib

/-!
Verification of the replicate-api-proxy translation layer.

The TypeScript sources (`message-processor.ts`, `api-service.ts`,
`controllers.ts`, `utils.ts`) are shallowly embedded below.  JavaScript
truthiness is made explicit everywhere it is observable: a missing field is
`Option.none`, the empty string is falsy, arrays are always truthy.
JavaScript string operations are modelled over `String.data` (the list of
characters); for the ASCII inputs the claims are about this coincides with
JavaScript's UTF-16 code-unit semantics.  `config.ts` is not part of the
sources, so the credential rotator and the error-code constants are modelled
from the spec where noted.  External collaborators (the tokenizer `encode`,
the wall clock `Date.now`) are passed as explicit parameters.
-/

namespace ReplicateProxy

/-! ## Data model (`types.ts` is absent; shapes reconstructed from use sites) -/

/-- One element of an OpenAI-style `content` array.
`text t`: an item with `type: "text"`; `t = none` models a missing `text`
field.  `image u`: an item with `type: "image_url"`; `u = none` models a
missing `image_url` object or a missing `url` field.  `other` is any item
whose `type` tag is neither `"text"` nor `"image_url"`. -/
inductive ContentItem where
  | text (t : Option String)
  | image (u : Option String)
  | other
  deriving DecidableEq, Repr

/-- The `content` field of a message: a plain string, an array of content
items, or absent/non-string-non-array (`undef`). -/
inductive MsgContent where
  | str (s : String)
  | arr (items : List ContentItem)
  | undef
  deriving DecidableEq, Repr

/-- An OpenAI-style chat message.  A missing `role` is modelled by `""`
(both are falsy and compare unequal to `"system"`/`"user"`). -/
structure Message where
  role : String
  content : MsgContent
  deriving DecidableEq, Repr

/-- The parsed request body of `POST /v1/chat/completions`.
`messages = none` models a missing or non-array `messages` field. -/
structure RequestBody where
  model : Option String
  messages : Option (List Message)
  stream : Option Bool
  deriving DecidableEq, Repr

/-- The input schema sent to the upstream model (`ModelInput` in the code).
`max_image_resolution` is the JavaScript number literal `0.5`, exactly
representable, modelled as a rational. -/
structure ModelInput where
  prompt : String
  max_tokens : Nat
  system_prompt : String
  max_image_resolution : ℚ
  image : Option String
  deriving DecidableEq, Repr

/-! ## `message-processor.ts` -/

/-- The anti-self-dialogue directive appended to the system prompt
(`antiSelfDialoguePrompt`, `message-processor.ts:167`, verbatim; the two
ASCII apostrophes are written `\x27`). -/
def antiSelfDialoguePrompt : String :=
  "请直接回答上述问题，提供完整详细的回答，然后停止。不要使用‘user：xxxx’模拟用户提问。严禁生成任何形式的\x27user:\x27等角色标记，不要模拟上下文中的‘user：xxxx，assistant：xxxx这种对话格式’，只需回答用户提出的问题即可。"

/-- The literal line appended to the conversation text
(`message-processor.ts:143`, verbatim). -/
def antiEchoLine : String :=
  "[请直接回答上述问题，提供完整详细的回答，然后停止。不要使用‘user：xxxx’模拟用户提问。严禁生成任何形式的\x27user:\x27等角色标记，不要模拟上下文中的‘user：xxxx，assistant：xxxx这种对话格式’，只需回答用户提出的问题即可。]\n"

/-- Text contribution of one system message to the system prompt
(`extractSystemPrompt` body, lines 58-67): string content is used verbatim
plus `"\n"`; array content contributes each truthy `text` item plus `"\n"`;
other content contributes nothing. -/
def sysText : MsgContent → String
  | .str s => s ++ "\n"
  | .arr items =>
      items.foldl
        (fun acc it =>
          match it with
          | .text (some t) => if t = "" then acc else acc ++ t ++ "\n"
          | _ => acc)
        ""
  | .undef => ""

/-- `extractSystemPrompt` (`message-processor.ts:49-79`): concatenates the
text of all `system` messages, trims the result, and removes the system
messages from the working array. -/
def extractSystemPrompt (messages : List Message) : String × List Message :=
  let systemMessages := messages.filter (fun m => m.role = "system")
  let sp := (systemMessages.foldl (fun acc m => acc ++ sysText m.content) "").trim
  (sp, messages.filter (fun m => m.role ≠ "system"))

/-- JavaScript truthiness of `contentItem.image_url && contentItem.image_url.url`
(`message-processor.ts:95`): yields the url iff it is present and non-empty. -/
def imageUrlTruthy : ContentItem → Option String
  | .image (some u) => if u = "" then none else some u
  | _ => none

/-- Is this a `type: "text"` item (kept by the rebuild at line 98-101)? -/
def isTextItem : ContentItem → Bool
  | .text _ => true
  | _ => false

/-- Per-message step of `extractImageUrls` (`message-processor.ts:88-106`):
for a `user` message with array content, collect the truthy image urls and
rebuild the content with only the text items; other messages are untouched. -/
def stripOneMessage (m : Message) : Message × List String :=
  if m.role = "user" then
    match m.content with
    | .arr items =>
        (⟨m.role, .arr (items.filter isTextItem)⟩, items.filterMap imageUrlTruthy)
    | _ => (m, [])
  else (m, [])

/-- `extractImageUrls` (`message-processor.ts:86-108`): traverses the
messages in order, accumulating image urls in encounter order. -/
def extractImageUrls : List Message → List Message × List String
  | [] => ([], [])
  | m :: rest =>
      let (m', us) := stripOneMessage m
      let (rest', us') := extractImageUrls rest
      (m' :: rest', us ++ us')

/-- Does a message pass the emission guard of the serialization loop
(`message-processor.ts:119`): truthy role, and content either truthy or an
array? -/
def emitsLine (m : Message) : Bool :=
  (m.role ≠ "" : Bool) &&
    (match m.content with
     | .str s => (s ≠ "" : Bool)
     | .arr _ => true
     | .undef => false)

/-- The `<role>: <text>\n` line emitted for one message
(`message-processor.ts:121-137`); for array content the text parts are the
space-joined `text` items (`item.text || ""`). -/
def messageLine (m : Message) : String :=
  m.role ++ ": " ++
    (match m.content with
     | .str s => s
     | .arr items =>
         String.intercalate " "
           ((items.filter isTextItem).map
             (fun it => match it with | .text (some t) => t | _ => ""))
     | .undef => "") ++ "\n"

/-- The accumulation loop of `formatMessagesToConversation`
(`message-processor.ts:118-139`). -/
def formatBody : List Message → String
  | [] => ""
  | m :: rest => (if emitsLine m then messageLine m else "") ++ formatBody rest

/-- `formatMessagesToConversation` (`message-processor.ts:115-148`): the
anti-echo line is appended iff the formatted content is non-empty and the
last message of the (non-empty) array has role `user`. -/
def formatMessagesToConversation (messages : List Message) : String :=
  let f := formatBody messages
  if f ≠ "" ∧ messages.getLast?.map Message.role = some "user" then
    f ++ antiEchoLine
  else f

/-- `processMessages` (`message-processor.ts:9-42`): returns
`(userContent, systemPrompt, imageUrls)`; `userContent = none` models the
JavaScript `undefined` returned when `messages` is not a non-empty array. -/
def processMessages (body : RequestBody) :
    Option String × String × List String :=
  match body.messages with
  | none => (none, "", [])
  | some [] => (none, "", [])
  | some msgs =>
      let (sp, rest) := extractSystemPrompt msgs
      let (rest2, urls) := extractImageUrls rest
      (some (formatMessagesToConversation rest2), sp, urls)

/-- `buildModelInput` (`message-processor.ts:157-201`). -/
def buildModelInput (userContent systemPrompt : String)
    (imageUrls : List String) : ModelInput :=
  let enhancedSystemPrompt :=
    if systemPrompt ≠ "" then systemPrompt ++ "\n\n" ++ antiSelfDialoguePrompt
    else antiSelfDialoguePrompt
  { prompt := userContent
    max_tokens := 64000
    system_prompt := enhancedSystemPrompt
    max_image_resolution := 0.5
    image :=
      if imageUrls.isEmpty then none
      else if imageUrls.length = 1 then imageUrls.head?
      else imageUrls.getLast? }

/-! ## `utils.ts` (`src/unnamed/part_001`): error responses and SSE chunks -/

/-- The `{error:{message, type, param:null, code}}` body of every error
response (`createErrorResponse`/`createAuthErrorResponse`); `param` is the
JSON literal `null` on every error body and is omitted here. -/
structure ErrorBody where
  message : String
  etype : String
  code : String
  deriving DecidableEq, Repr

/-- An HTTP error response as far as the claims observe it: status code,
`WWW-Authenticate` header (when set), and structured body. -/
structure HttpResponse where
  status : Nat
  wwwAuthenticate : Option String
  body : ErrorBody
  deriving DecidableEq, Repr

/-- `createAuthErrorResponse` (`utils.ts:97-116`): status 401,
`WWW-Authenticate: Bearer realm="API Access"`, type `invalid_request_error`. -/
def createAuthErrorResponse (message code : String) : HttpResponse :=
  { status := 401
    wwwAuthenticate := some "Bearer realm=\"API Access\""
    body := { message := message, etype := "invalid_request_error", code := code } }

/-- The `delta` object of an SSE chunk: at most a `role` and a `content`
key; a `none` field models an absent key. -/
structure Delta where
  role : Option String
  content : Option String
  deriving DecidableEq, Repr

/-- The `usage` object attached to the terminal SSE chunk. -/
structure Usage where
  prompt_tokens : Nat
  completion_tokens : Nat
  total_tokens : Nat
  deriving DecidableEq, Repr

/-- One SSE chunk as serialized by `createSSEChunk` (single choice at
index 0, `logprobs` always the JSON `null` and omitted here). -/
structure SSEChunk where
  id : String
  object : String
  created : Nat
  model : String
  index : Nat
  delta : Delta
  finish_reason : Option String
  usage : Option Usage
  deriving DecidableEq, Repr

/-- JavaScript truthiness of a nullable string argument: truthy iff present
and non-empty. -/
def strTruthy : Option String → Bool
  | some s => s ≠ ""
  | none => false

/-- `createSSEChunk` (`utils.ts:13-56`).  `now` models the
`Math.floor(Date.now() / 1000)` sampled inside the function at each call.
The `role`/`content` keys are set iff the corresponding argument is truthy;
`usage` is attached iff provided and `finish_reason === "stop"`. -/
def createSSEChunk (now : Nat) (id model : String)
    (content role finish_reason : Option String) (usage : Option Usage) :
    SSEChunk :=
  { id := id
    object := "chat.completion.chunk"
    created := now
    model := model
    index := 0
    delta :=
      { role := if strTruthy role then role else none
        content := if strTruthy content then content else none }
    finish_reason := finish_reason
    usage := if usage.isSome && finish_reason = some "stop" then usage else none }

/-! ## `controllers.ts`: auth, handler, stream encoding -/

/-- Modelled from the spec: `config.ts` is absent from `src/`; §6 of the
spec fixes the error code strings (`invalid_json`, `invalid_messages`,
`invalid_auth_key`, `missing_auth_header`). -/
def INVALID_MESSAGES : String := "invalid_messages"

/-- Modelled from the spec: see `INVALID_MESSAGES`. -/
def INVALID_AUTH_KEY : String := "invalid_auth_key"

/-- Modelled from the spec: see `INVALID_MESSAGES`. -/
def MISSING_AUTH_HEADER : String := "missing_auth_header"

/-- JavaScript `String.prototype.toLowerCase`, character-wise (faithful for
the ASCII range, which is all the scheme comparison inspects). -/
def lowerAscii (s : String) : String := ⟨s.data.map Char.toLower⟩

/-- The first `n` characters, JavaScript `substring(0, n)`. -/
def takeChars (n : Nat) (s : String) : String := ⟨s.data.take n⟩

/-- Everything after the first `n` characters, JavaScript `substring(n)`. -/
def dropChars (n : Nat) (s : String) : String := ⟨s.data.drop n⟩

/-- JavaScript `s.startsWith(p)`: the first `p.length` units of `s` equal
`p`. -/
def jsStartsWith (s p : String) : Bool := s.data.take p.data.length = p.data

/-- Result record of `validateApiKey` (`controllers.ts:58-92`). -/
structure KeyCheck where
  isValid : Bool
  providedKey : Option String
  response : Option HttpResponse
  deriving DecidableEq, Repr

/-- `validateApiKey` (`controllers.ts:58-92`).  `AUTH_KEY` (the configured
secret, from the absent `config.ts`) is a parameter.  A missing header or
one whose lowercased form does not start with `"bearer "` yields the
missing-header 401; otherwise the remainder after the first 7 characters
must equal the secret exactly. -/
def validateApiKey (AUTH_KEY : String) (authHeader : Option String) : KeyCheck :=
  match authHeader with
  | none =>
      { isValid := false, providedKey := none
        response := some (createAuthErrorResponse
          "Unauthorized: Missing or invalid Authorization header. Use \x27Bearer <YOUR_API_KEY>\x27 format."
          MISSING_AUTH_HEADER) }
  | some h =>
      if ¬ jsStartsWith (lowerAscii h) "bearer " then
        { isValid := false, providedKey := none
          response := some (createAuthErrorResponse
            "Unauthorized: Missing or invalid Authorization header. Use \x27Bearer <YOUR_API_KEY>\x27 format."
            MISSING_AUTH_HEADER) }
      else
        let providedKey := dropChars 7 h
        if providedKey ≠ AUTH_KEY then
          { isValid := false, providedKey := none
            response := some (createAuthErrorResponse
              "Unauthorized: Invalid API Key provided." INVALID_AUTH_KEY) }
        else
          { isValid := true, providedKey := some providedKey, response := none }

/-- Outcome of `handleChatCompletionRequest` after auth and JSON parsing
(`controllers.ts:122-152`): either an error response or a dispatch with the
built model input. -/
inductive HandlerOutcome where
  | errorResp (status : Nat) (etype code : String)
  | proceed (model : String) (input : ModelInput) (stream : Bool)
  deriving DecidableEq, Repr

/-- Is the outcome a dispatch? -/
def HandlerOutcome.isProceed : HandlerOutcome → Bool
  | .proceed _ _ _ => true
  | _ => false

/-- The message-validation and input-building part of
`handleChatCompletionRequest` (`controllers.ts:122-152`).  `proxyModelName`
is `PROXY_MODEL_NAME` from the absent `config.ts`; the random completion id
is not modelled (no claim observes it). -/
def handleChatCompletion (proxyModelName : String) (body : RequestBody) :
    HandlerOutcome :=
  let isStream := body.stream = some true
  match processMessages body with
  | (userContent, systemPrompt, imageUrls) =>
    match userContent with
    | none => .errorResp 400 "invalid_request_error" INVALID_MESSAGES
    | some u =>
        if u = "" then .errorResp 400 "invalid_request_error" INVALID_MESSAGES
        else
          let input := buildModelInput u systemPrompt imageUrls
          let modelName :=
            match body.model with
            | some m => if m = "" then proxyModelName else m
            | none => proxyModelName
          .proceed modelName input isStream

/-! ### Stream encoding (`handleStreamResponse`, `controllers.ts:172-256`) -/

/-- An upstream event as inspected by the encoder loop
(`controllers.ts:203-212`): `output` with a string payload, an `output`
event whose `data` is not a string, `done`, or any other event type. -/
inductive ReplicateEvent where
  | output (data : String)
  | outputNonString
  | done
  | other
  deriving DecidableEq, Repr

/-- One unit enqueued on the SSE stream: an encoded chunk or the literal
`data: [DONE]\n\n` line. -/
inductive StreamItem where
  | chunk (c : SSEChunk)
  | doneMarker
  deriving DecidableEq, Repr

/-- How the upstream event iterator ended: normal completion or a thrown
error. -/
inductive UpstreamEnd where
  | completed
  | errored
  deriving DecidableEq, Repr

/-- How the SSE `ReadableStream` ends: `controller.close()` or
`controller.error(...)`. -/
inductive StreamEnd where
  | closedClean
  | erroredOut
  deriving DecidableEq, Repr

/-- Mutable loop state of the stream encoder (`controllers.ts:189-190`). -/
structure EncState where
  isFirstEvent : Bool
  completionContent : String
  deriving DecidableEq, Repr

/-- Processing of one upstream event by the loop body
(`controllers.ts:192-236`).  `k` counts `createSSEChunk` calls so far;
`clock k` is the `Date.now()/1000` reading at the `k`-th call.  Any first
event triggers the role-announcement chunk; `output` events with string
payloads are accumulated and re-encoded; `done` emits the terminal chunk
with usage and the `[DONE]` marker; everything else is ignored. -/
def stepChunks (encLen : String → Nat) (id model : String)
    (totalPromptTokens : Nat) (clock : Nat → Nat)
    (st : EncState) (k : Nat) (e : ReplicateEvent) :
    EncState × Nat × List StreamItem :=
  let roleItems : List StreamItem :=
    if st.isFirstEvent then
      [.chunk (createSSEChunk (clock k) id model none (some "assistant") none none)]
    else []
  let st1 : EncState := { st with isFirstEvent := false }
  let k1 := if st.isFirstEvent then k + 1 else k
  match e with
  | .output s =>
      ({ st1 with completionContent := st1.completionContent ++ s }, k1 + 1,
        roleItems ++ [.chunk (createSSEChunk (clock k1) id model (some s) none none none)])
  | .done =>
      let completionTokens := encLen st1.completionContent
      let usage : Usage :=
        { prompt_tokens := totalPromptTokens
          completion_tokens := completionTokens
          total_tokens := totalPromptTokens + completionTokens }
      (st1, k1 + 1,
        roleItems ++
          [.chunk (createSSEChunk (clock k1) id model none none (some "stop") (some usage)),
           .doneMarker])
  | _ => (st1, k1, roleItems)

/-- The `for await` loop over the upstream events
(`controllers.ts:192-236`), threading the encoder state and the chunk
counter. -/
def encodeEvents (encLen : String → Nat) (id model : String)
    (totalPromptTokens : Nat) (clock : Nat → Nat) :
    EncState → Nat → List ReplicateEvent → List StreamItem × EncState × Nat
  | st, k, [] => ([], st, k)
  | st, k, e :: rest =>
      let s := stepChunks encLen id model totalPromptTokens clock st k e
      let t := encodeEvents encLen id model totalPromptTokens clock s.1 s.2.1 rest
      (s.2.2 ++ t.1, t.2.1, t.2.2)

/-- `handleStreamResponse` (`controllers.ts:172-256`).  `events` are the
events the upstream iterator yielded before it ended; `upEnd` says whether
it completed normally or threw.  On normal completion the controller is
closed (`controllers.ts:239`); on a throw the error is propagated via
`controller.error` (`controllers.ts:242`). -/
def handleStreamResponse (encLen : String → Nat) (id model : String)
    (input : ModelInput) (clock : Nat → Nat)
    (events : List ReplicateEvent) (upEnd : UpstreamEnd) :
    List StreamItem × StreamEnd :=
  let promptTokens := encLen input.prompt
  let systemPromptTokens := if input.system_prompt ≠ "" then encLen input.system_prompt else 0
  let totalPromptTokens := promptTokens + systemPromptTokens
  ((encodeEvents encLen id model totalPromptTokens clock ⟨true, ""⟩ 0 events).1,
   match upEnd with | .completed => .closedClean | .errored => .erroredOut)

/-- The SSE chunks among the enqueued items. -/
def chunksOf (items : List StreamItem) : List SSEChunk :=
  items.filterMap fun it => match it with | .chunk c => some c | .doneMarker => none

/-! ## `api-service.ts`: credential rotation and retry -/

/-- Modelled from the spec: `config.ts` (credential pool and rotator) is
absent from `src/`.  §4.2: an ordered non-empty key pool and a cursor;
`next()` returns the credential at the cursor, then advances it by one
modulo the pool size. -/
structure Rotator where
  keys : List String
  cursor : Nat
  deriving DecidableEq, Repr

/-- Modelled from the spec: `getNextReplicateClient` of the absent
`config.ts` (§4.2 read-and-advance).  The returned client is identified
with its credential. -/
def getNextReplicateClient (r : Rotator) : String × Rotator :=
  (r.keys.getD (r.cursor % r.keys.length) "",
   { r with cursor := (r.cursor + 1) % r.keys.length })

/-- The first `n` clients handed out by the rotator, in order. -/
def rotatorTake : Nat → Rotator → List String × Rotator
  | 0, r => ([], r)
  | n + 1, r =>
      let (c, r') := getNextReplicateClient r
      let (cs, r'') := rotatorTake n r'
      (c :: cs, r'')

/-- `maxRetries` as set by the `ApiService` constructor
(`api-service.ts:30`): `Math.min(REPLICATE_API_KEYS.length, 3)`. -/
def maxRetries (numKeys : Nat) : Nat := min numKeys 3

/-- The shared retry loop of `streamModelResponse` and `getModelResponse`
(`api-service.ts:52-78` and `96-127`): run one attempt with the current
client; on success return; on failure, while retries remain, fetch the next
client from the rotator and retry; after the budget is exhausted the last
error is thrown.  Returns the result, the clients attempted in order, and
the final rotator state.  `attempt c` is the outcome of a full upstream
call with client `c`. -/
def dispatchGo {E A : Type} (attempt : String → Except E A) :
    String → Rotator → Nat → Except E A × List String × Rotator
  | client, r, 0 => (attempt client, [client], r)
  | client, r, n + 1 =>
      match attempt client with
      | .ok a => (.ok a, [client], r)
      | .error _ =>
          let (c', r') := getNextReplicateClient r
          let (res, used, r'') := dispatchGo attempt c' r' n
          (res, client :: used, r'')

/-- The value of a completed non-stream prediction
(`api-service.ts:106-112`): an array is joined with no separator, anything
else is stringified (already-a-string case shown). -/
inductive Prediction where
  | arr (parts : List String)
  | scalar (s : String)
  deriving DecidableEq, Repr

/-- `prediction.join("")` / `String(prediction)` (`api-service.ts:106-112`). -/
def Prediction.toOutput : Prediction → String
  | .arr parts => String.join parts
  | .scalar s => s

/-- `ApiService.getModelResponse` (`api-service.ts:89-131`): a fresh client
is taken at entry, then the retry loop with budget
`min(REPLICATE_API_KEYS.length, 3)` runs; the completed prediction is
post-processed by `Prediction.toOutput`. -/
def getModelResponse {E : Type} (attempt : String → Except E Prediction)
    (r : Rotator) : Except E String × List String × Rotator :=
  let (c0, r0) := getNextReplicateClient r
  let (res, used, r') := dispatchGo attempt c0 r0 (maxRetries r.keys.length)
  (res.map Prediction.toOutput, used, r')

/-- `ApiService.streamModelResponse` (`api-service.ts:45-82`): same loop;
an attempt's value is the full event sequence the stream yields when the
attempt succeeds end-to-end, and `.error` is a failure at any point of that
attempt. -/
def streamModelResponse {E : Type} (attempt : String → Except E (List ReplicateEvent))
    (r : Rotator) : Except E (List ReplicateEvent) × List String × Rotator :=
  let (c0, r0) := getNextReplicateClient r
  dispatchGo attempt c0 r0 (maxRetries r.keys.length)

/-! ## Supporting lemmas -/

theorem str_data_append (a b : String) : (a ++ b).data = a.data ++ b.data := rfl

theorem str_eq_empty_iff (s : String) : s = "" ↔ s.data = [] := by
  cases s with
  | mk d => simp [String.ext_iff]

theorem str_append_newline_ne_empty (a : String) : a ++ "\n" ≠ "" := by
  intro h
  rw [str_eq_empty_iff, str_data_append] at h
  simp at h

theorem messageLine_ne_empty (m : Message) : messageLine m ≠ "" := by
  unfold messageLine
  exact str_append_newline_ne_empty _

theorem str_append_eq_empty_iff (a b : String) :
    a ++ b = "" ↔ a = "" ∧ b = "" := by
  rw [str_eq_empty_iff, str_data_append, List.append_eq_nil,
    ← str_eq_empty_iff, ← str_eq_empty_iff]

/-! ## Claims -/

/-- C3: feeding the streaming encoder the upstream sequence
`[output "Hi", output " there", done]` (for any tokenizer, clock, ids and
normalized input) produces exactly four SSE chunks in order — the
role-announcement chunk (`delta.role = "assistant"`, null finish reason), a
content chunk `"Hi"`, a content chunk `" there"`, and a terminal chunk with
empty delta, `finish_reason = "stop"` and a usage object whose
`completion_tokens` is the token count of `"Hi there"` and whose
`prompt_tokens` is the prompt token count plus the system-prompt token
count — followed by the literal `data: [DONE]\n\n` line; `usage` appears on
no other chunk, and the stream then closes cleanly. -/
theorem c3_sse_round_trip (encLen : String → Nat) (id model : String)
    (input : ModelInput) (clock : Nat → Nat) :
    handleStreamResponse encLen id model input clock
        [.output "Hi", .output " there", .done] .completed =
      ([ .chunk { id := id, object := "chat.completion.chunk", created := clock 0,
                  model := model, index := 0,
                  delta := { role := some "assistant", content := none },
                  finish_reason := none, usage := none },
         .chunk { id := id, object := "chat.completion.chunk", created := clock 1,
                  model := model, index := 0,
                  delta := { role := none, content := some "Hi" },
                  finish_reason := none, usage := none },
         .chunk { id := id, object := "chat.completion.chunk", created := clock 2,
                  model := model, index := 0,
                  delta := { role := none, content := some " there" },
                  finish_reason := none, usage := none },
         .chunk { id := id, object := "chat.completion.chunk", created := clock 3,
                  model := model, index := 0,
                  delta := { role := none, content := none },
                  finish_reason := some "stop",
                  usage := some
                    { prompt_tokens :=
                        encLen input.prompt +
                          (if input.system_prompt ≠ "" then encLen input.system_prompt else 0)
                      completion_tokens := encLen "Hi there"
                      total_tokens :=
                        encLen input.prompt +
                          (if input.system_prompt ≠ "" then encLen input.system_prompt else 0) +
                          encLen "Hi there" } },
         .doneMarker ], .closedClean) := rfl

/-- C9: every model input built by `buildModelInput` — and in particular
the input of every request the handler dispatches — carries the constants
`max_tokens = 64000` and `max_image_resolution = 0.5`; the request body
cannot influence these fields. -/
theorem c9_constant_fields :
    (∀ userContent systemPrompt imageUrls,
      (buildModelInput userContent systemPrompt imageUrls).max_tokens = 64000 ∧
      (buildModelInput userContent systemPrompt imageUrls).max_image_resolution = 0.5) ∧
    (∀ proxyModelName (body : RequestBody) m i s,
      handleChatCompletion proxyModelName body = .proceed m i s →
      i.max_tokens = 64000 ∧ i.max_image_resolution = 0.5) := by
  constructor
  · intro userContent systemPrompt imageUrls
    exact ⟨rfl, rfl⟩
  · intro pm body m i s h
    unfold handleChatCompletion at h
    rcases hp : processMessages body with ⟨uc, sp, urls⟩
    rw [hp] at h
    cases uc with
    | none => simp at h
    | some u =>
        simp only [] at h
        by_cases hu : u = ""
        · simp [hu] at h
        · simp [hu] at h
          rcases h with ⟨-, hi, -⟩
          rw [← hi]
          exact ⟨rfl, rfl⟩

/-- Witness for C9: a concrete request is dispatched and its input carries
the two constants. -/
theorem c9_constant_fields_witness :
    ∃ m i s,
      handleChatCompletion "proxy" ⟨none, some [⟨"user", .str "hi"⟩], none⟩ = .proceed m i s ∧
      i.max_tokens = 64000 ∧ i.max_image_resolution = 0.5 :=
  ⟨_, _, _, rfl, (c9_constant_fields.2 "proxy" ⟨none, some [⟨"user", .str "hi"⟩], none⟩ _ _ _ rfl)⟩

/-! ### C2: image forwarding -/

/-- Statement-side predicate: does some message carry an `image_url`
content item (of any shape)? -/
def hasImageItem (msgs : List Message) : Bool :=
  msgs.any fun m =>
    match m.content with
    | .arr items => items.any (fun it => match it with | .image _ => true | _ => false)
    | _ => false

/-- Statement-side list of the image URLs the claim is about: the
present-and-non-empty urls of `image_url` items of `user` messages (the
messages the extraction inspects), in message order, system messages
removed first. -/
def specImageUrls (msgs : List Message) : List String :=
  (msgs.filter (fun m => m.role ≠ "system")).foldr
    (fun m acc =>
      (if m.role = "user" then
        match m.content with
        | .arr items => items.filterMap imageUrlTruthy
        | _ => []
       else []) ++ acc) []

/-- C2 counterexample: a conversation whose single user message carries one
`image_url` content item with an empty `url`.  The claim says the
normalized input then carries exactly one image URL; in fact the extraction
drops the item (JavaScript truthiness of `image_url.url`), no image URL is
accumulated, and the built input carries no image at all. -/
theorem c2_counterexample :
    hasImageItem [⟨"user", .arr [.image (some "")]⟩] = true ∧
    (processMessages ⟨none, some [⟨"user", .arr [.image (some "")]⟩], none⟩).2.2 = [] ∧
    ∀ uc sp,
      (buildModelInput uc sp
        (processMessages ⟨none, some [⟨"user", .arr [.image (some "")]⟩], none⟩).2.2).image
        = none :=
  ⟨rfl, rfl, fun _ _ => rfl⟩

theorem extractImageUrls_fst (l : List Message) :
    (extractImageUrls l).1 = l.map (fun m => (stripOneMessage m).1) := by
  induction l with
  | nil => rfl
  | cons m rest ih => simp [extractImageUrls, ih]

theorem extractImageUrls_snd (l : List Message) :
    (extractImageUrls l).2 = l.foldr (fun m acc => (stripOneMessage m).2 ++ acc) [] := by
  induction l with
  | nil => rfl
  | cons m rest ih => simp [extractImageUrls, ih]

theorem stripOneMessage_snd (m : Message) :
    (stripOneMessage m).2 =
      (if m.role = "user" then
        match m.content with
        | .arr items => items.filterMap imageUrlTruthy
        | _ => []
       else []) := by
  unfold stripOneMessage
  by_cases h : m.role = "user"
  · simp [h]; cases m.content <;> rfl
  · simp [h]

theorem extractSystemPrompt_snd (l : List Message) :
    (extractSystemPrompt l).2 = l.filter (fun m => m.role ≠ "system") := rfl

theorem processMessages_urls (msgs : List Message) (hne : msgs ≠ [])
    (model : Option String) (stream : Option Bool) :
    (processMessages ⟨model, some msgs, stream⟩).2.2 = specImageUrls msgs := by
  cases msgs with
  | nil => exact absurd rfl hne
  | cons m rest =>
      show (extractImageUrls (extractSystemPrompt (m :: rest)).2).2 = _
      rw [extractImageUrls_snd, extractSystemPrompt_snd]
      unfold specImageUrls
      congr 1
      funext x acc
      rw [stripOneMessage_snd]

theorem buildModelInput_image (uc sp : String) (urls : List String)
    (h : urls ≠ []) : (buildModelInput uc sp urls).image = urls.getLast? := by
  unfold buildModelInput
  cases urls with
  | nil => exact absurd rfl h
  | cons a t =>
      cases t with
      | nil => rfl
      | cons b t2 => simp [List.isEmpty, List.length]

/-- C2 (amended): for every conversation whose user messages contain at
least one `image_url` item with a present, non-empty URL, the normalized
pipeline accumulates exactly those URLs in message order and the built
model input carries exactly one image URL, equal to the last such URL;
image items with a missing or empty `url` — and all URLs before the last —
are dropped without error.  (The original claim, quantified over any
`image_url` content item, fails when the only item has an empty or missing
url: see the counterexample.) -/
theorem c2_last_image_kept (model : Option String) (stream : Option Bool)
    (msgs : List Message) (hne : msgs ≠ [])
    (himg : specImageUrls msgs ≠ []) :
    (processMessages ⟨model, some msgs, stream⟩).2.2 = specImageUrls msgs ∧
    ∃ u, (specImageUrls msgs).getLast? = some u ∧
      ∀ uc sp,
        (buildModelInput uc sp (processMessages ⟨model, some msgs, stream⟩).2.2).image
          = some u := by
  have hurls := processMessages_urls msgs hne model stream
  refine ⟨hurls, ?_⟩
  have hsome : (specImageUrls msgs).getLast?.isSome := List.getLast?_isSome.mpr himg
  rcases Option.isSome_iff_exists.mp hsome with ⟨u, hu⟩
  refine ⟨u, hu, fun uc sp => ?_⟩
  rw [hurls, buildModelInput_image uc sp _ himg, hu]

/-- Witness for C2 (amended): two images across one conversation; the
built input carries exactly the second URL. -/
theorem c2_last_image_kept_witness :
    (processMessages ⟨none, some [⟨"user", .arr [.image (some "a"), .text (some "x"), .image (some "b")]⟩], none⟩).2.2
      = specImageUrls [⟨"user", .arr [.image (some "a"), .text (some "x"), .image (some "b")]⟩] ∧
    ∃ u, (specImageUrls [⟨"user", .arr [.image (some "a"), .text (some "x"), .image (some "b")]⟩]).getLast? = some u ∧
      ∀ uc sp,
        (buildModelInput uc sp
          (processMessages ⟨none, some [⟨"user", .arr [.image (some "a"), .text (some "x"), .image (some "b")]⟩], none⟩).2.2).image
          = some u :=
  c2_last_image_kept none none _ (by decide) (by decide)

/-! ### C6: empty-conversation rejection -/

/-- Statement-side predicate: a message that contributes no line to the
serialized prompt — missing/empty role, or content that is the empty
string or missing (array content, even empty, always contributes a line). -/
def inertMessage (m : Message) : Bool :=
  (m.role = "" : Bool) ||
    (match m.content with
     | .str s => (s = "" : Bool)
     | .arr _ => false
     | .undef => true)

/-- Statement-side predicate: the request bodies rejected with
`invalid_messages` — a missing/non-array/empty `messages` field, or one
whose non-system messages are all inert. -/
def rejectedBody (body : RequestBody) : Bool :=
  match body.messages with
  | none => true
  | some msgs =>
      msgs.isEmpty || msgs.all (fun m => (m.role = "system" : Bool) || inertMessage m)

theorem emitsLine_eq_false_iff (m : Message) :
    emitsLine m = false ↔ inertMessage m = true := by
  cases hc : m.content with
  | str s =>
      simp only [emitsLine, inertMessage, hc]
      by_cases hr : m.role = "" <;> by_cases hs : s = "" <;> simp [hr, hs]
  | arr items =>
      simp only [emitsLine, inertMessage, hc]
      by_cases hr : m.role = "" <;> simp [hr]
  | undef =>
      simp only [emitsLine, inertMessage, hc]
      by_cases hr : m.role = "" <;> simp [hr]

theorem emitsLine_strip (m : Message) :
    emitsLine (stripOneMessage m).1 = emitsLine m := by
  unfold stripOneMessage
  by_cases h : m.role = "user"
  · cases hc : m.content <;> simp [h, hc, emitsLine]
  · simp [h]

theorem formatBody_eq_empty (l : List Message) :
    formatBody l = "" ↔ ∀ m ∈ l, emitsLine m = false := by
  induction l with
  | nil => simp [formatBody]
  | cons m rest ih =>
      simp only [formatBody]
      rw [str_append_eq_empty_iff, ih]
      cases h : emitsLine m with
      | true => simp [h, messageLine_ne_empty m]
      | false => simp [h]

theorem formatMessagesToConversation_eq_empty (l : List Message) :
    formatMessagesToConversation l = "" ↔ formatBody l = "" := by
  unfold formatMessagesToConversation
  by_cases hf : formatBody l = ""
  · simp [hf]
  · by_cases hc : l.getLast?.map Message.role = some "user"
    · simp [hf, hc, str_append_eq_empty_iff]
    · simp [hf, hc]

/-- C6 counterexample: a conversation whose only message has
whitespace-only content `" "`.  The claim says normalization fails and the
handler answers 400 `invalid_messages`; in fact the serialization emits
`"user:  \n"`, the anti-echo line is appended, and the handler proceeds to
build a model input. -/
theorem c6_counterexample :
    (processMessages ⟨none, some [⟨"user", .str " "⟩], none⟩).1
      = some ("user:  \n" ++ antiEchoLine) ∧
    (handleChatCompletion "proxy" ⟨none, some [⟨"user", .str " "⟩], none⟩).isProceed
      = true :=
  ⟨rfl, rfl⟩

/-- C6 (amended): the handler returns 400 with code `invalid_messages`
exactly when the `messages` field is missing/not an array/empty, or every
non-system message is inert (missing or empty role, or content that is the
empty string or missing).  In particular whitespace-only string content and
array content — even an empty array — are accepted, not rejected: the
original claim's "empty or whitespace" condition fails on whitespace (see
the counterexample). -/
theorem c6_invalid_messages_iff (proxyModelName : String) (body : RequestBody) :
    handleChatCompletion proxyModelName body
        = .errorResp 400 "invalid_request_error" INVALID_MESSAGES
      ↔ rejectedBody body = true := by
  rcases body with ⟨model, messages, stream⟩
  cases messages with
  | none => simp [handleChatCompletion, processMessages, rejectedBody]
  | some msgs =>
    cases msgs with
    | nil => simp [handleChatCompletion, processMessages, rejectedBody]
    | cons m rest =>
      have hmain :
          handleChatCompletion proxyModelName ⟨model, some (m :: rest), stream⟩
              = .errorResp 400 "invalid_request_error" INVALID_MESSAGES
            ↔ formatMessagesToConversation
                ((extractImageUrls (extractSystemPrompt (m :: rest)).2).1) = "" := by
        by_cases hu :
            formatMessagesToConversation
              ((extractImageUrls (extractSystemPrompt (m :: rest)).2).1) = ""
        · simp [handleChatCompletion, processMessages, hu]
        · simp [handleChatCompletion, processMessages, hu]
      rw [hmain, formatMessagesToConversation_eq_empty, formatBody_eq_empty,
        extractImageUrls_fst, extractSystemPrompt_snd]
      simp only [rejectedBody, List.isEmpty_cons, Bool.false_or, List.all_eq_true,
        Bool.or_eq_true, decide_eq_true_eq]
      constructor
      · intro h x hx
        by_cases hs : x.role = "system"
        · exact Or.inl hs
        · refine Or.inr ?_
          have hmem : (stripOneMessage x).1 ∈
              ((m :: rest).filter (fun y => y.role ≠ "system")).map
                (fun y => (stripOneMessage y).1) :=
            List.mem_map_of_mem _ (List.mem_filter.mpr ⟨hx, by simp [hs]⟩)
          have := h _ hmem
          rw [emitsLine_strip] at this
          exact (emitsLine_eq_false_iff x).mp this
      · intro h x hx
        rcases List.mem_map.mp hx with ⟨y, hy, rfl⟩
        rcases List.mem_filter.mp hy with ⟨hy1, hy2⟩
        rw [emitsLine_strip]
        rcases h y hy1 with hsys | hin
        · exact absurd hsys (by simpa using hy2)
        · exact (emitsLine_eq_false_iff y).mpr hin

/-! ### C7: anti-echo directive -/

theorem handler_proceed_inversion (proxyModelName : String) (body : RequestBody)
    (m : String) (i : ModelInput) (s : Bool)
    (h : handleChatCompletion proxyModelName body = .proceed m i s) :
    ∃ msgs, body.messages = some msgs ∧ msgs ≠ [] ∧
      formatMessagesToConversation ((extractImageUrls (extractSystemPrompt msgs).2).1) ≠ "" ∧
      i = buildModelInput
            (formatMessagesToConversation ((extractImageUrls (extractSystemPrompt msgs).2).1))
            (extractSystemPrompt msgs).1
            ((extractImageUrls (extractSystemPrompt msgs).2).2) := by
  rcases body with ⟨model, messages, stream⟩
  cases messages with
  | none => simp [handleChatCompletion, processMessages] at h
  | some msgs =>
    cases msgs with
    | nil => simp [handleChatCompletion, processMessages] at h
    | cons m0 rest =>
      by_cases hu :
          formatMessagesToConversation
            ((extractImageUrls (extractSystemPrompt (m0 :: rest)).2).1) = ""
      · simp [handleChatCompletion, processMessages, hu] at h
      · simp only [handleChatCompletion, processMessages, hu, if_neg,
          reduceCtorEq, HandlerOutcome.proceed.injEq, if_false] at h
        exact ⟨m0 :: rest, rfl, by simp, hu, by simp [h]⟩

/-- C7: for every conversation the handler accepts, the serialized prompt
gets the constant anti-echo line appended exactly when the last remaining
(non-system) message has role `user`; the system prompt sent upstream
always ends with the anti-echo directive — appended after a blank line when
an extracted system prompt exists, and constituting the entire system
prompt when none exists; and the appended prompt line is the same directive
wrapped in brackets plus a newline (both literals share the directive text
verbatim). -/
theorem c7_anti_echo_directive (proxyModelName : String) (body : RequestBody)
    (m : String) (i : ModelInput) (s : Bool)
    (h : handleChatCompletion proxyModelName body = .proceed m i s) :
    (∃ msgs, body.messages = some msgs ∧
      formatBody ((extractImageUrls (extractSystemPrompt msgs).2).1) ≠ "" ∧
      i.prompt =
        (if ((extractImageUrls (extractSystemPrompt msgs).2).1).getLast?.map Message.role
              = some "user"
         then formatBody ((extractImageUrls (extractSystemPrompt msgs).2).1) ++ antiEchoLine
         else formatBody ((extractImageUrls (extractSystemPrompt msgs).2).1)) ∧
      i.system_prompt =
        (if (extractSystemPrompt msgs).1 = "" then antiSelfDialoguePrompt
         else (extractSystemPrompt msgs).1 ++ "\n\n" ++ antiSelfDialoguePrompt)) ∧
    (∃ t, i.system_prompt = t ++ antiSelfDialoguePrompt) ∧
    antiEchoLine = "[" ++ antiSelfDialoguePrompt ++ "]\n" := by
  rcases handler_proceed_inversion proxyModelName body m i s h with
    ⟨msgs, hmsgs, hne, hucne, hi⟩
  have hf : formatBody ((extractImageUrls (extractSystemPrompt msgs).2).1) ≠ "" := by
    intro hf0
    exact hucne ((formatMessagesToConversation_eq_empty _).mpr hf0)
  have hprompt : i.prompt =
      (if ((extractImageUrls (extractSystemPrompt msgs).2).1).getLast?.map Message.role
            = some "user"
       then formatBody ((extractImageUrls (extractSystemPrompt msgs).2).1) ++ antiEchoLine
       else formatBody ((extractImageUrls (extractSystemPrompt msgs).2).1)) := by
    rw [hi]
    show formatMessagesToConversation _ = _
    unfold formatMessagesToConversation
    by_cases hc : ((extractImageUrls (extractSystemPrompt msgs).2).1).getLast?.map Message.role
        = some "user"
    · simp [hf, hc]
    · simp [hf, hc]
  have hsys : i.system_prompt =
      (if (extractSystemPrompt msgs).1 = "" then antiSelfDialoguePrompt
       else (extractSystemPrompt msgs).1 ++ "\n\n" ++ antiSelfDialoguePrompt) := by
    rw [hi]
    show (if (extractSystemPrompt msgs).1 ≠ "" then _ else _) = _
    by_cases hsp : (extractSystemPrompt msgs).1 = ""
    · simp [hsp]
    · simp [hsp]
  refine ⟨⟨msgs, hmsgs, hf, hprompt, hsys⟩, ?_, rfl⟩
  by_cases hsp : (extractSystemPrompt msgs).1 = ""
  · exact ⟨"", by rw [hsys, if_pos hsp]; rfl⟩
  · exact ⟨(extractSystemPrompt msgs).1 ++ "\n\n", by rw [hsys, if_neg hsp]⟩

/-- Witness for C7: a concrete accepted single-user-message conversation;
the system prompt of the built input ends with the directive and the
bracketed prompt line carries the same directive. -/
theorem c7_anti_echo_directive_witness :
    ∃ m i s,
      handleChatCompletion "proxy" ⟨none, some [⟨"user", .str "hello"⟩], none⟩
        = .proceed m i s ∧
      (∃ t, i.system_prompt = t ++ antiSelfDialoguePrompt) ∧
      antiEchoLine = "[" ++ antiSelfDialoguePrompt ++ "]\n" :=
  ⟨_, _, _, rfl,
    (c7_anti_echo_directive "proxy" ⟨none, some [⟨"user", .str "hello"⟩], none⟩ _ _ _ rfl).2⟩

/-! ### C8 and C10: bearer authentication -/

theorem str_mk_data (s : String) : String.mk s.data = s := by
  cases s
  rfl

theorem scheme_check_iff (h : String) :
    jsStartsWith (lowerAscii h) "bearer " = true ↔
      lowerAscii (takeChars 7 h) = "bearer " := by
  unfold jsStartsWith lowerAscii takeChars
  rw [decide_eq_true_eq]
  show (h.data.map Char.toLower).take "bearer ".data.length = "bearer ".data ↔ _
  rw [String.ext_iff]
  show _ ↔ (h.data.take 7).map Char.toLower = "bearer ".data
  rw [List.map_take]
  rfl

theorem scheme_check_of_lower_seven (p k : String)
    (hp : p.data.map Char.toLower = "bearer ".data) :
    jsStartsWith (lowerAscii (p ++ k)) "bearer " = true := by
  unfold jsStartsWith lowerAscii
  rw [decide_eq_true_eq]
  show ((p ++ k).data.map Char.toLower).take "bearer ".data.length = "bearer ".data
  rw [str_data_append, List.map_append, ← hp]
  exact List.take_left' (by rw [hp])

theorem dropChars_append (p k : String) (hp : p.data.length = 7) :
    dropChars 7 (p ++ k) = k := by
  unfold dropChars
  rw [str_data_append, List.drop_left' hp, str_mk_data]

theorem str_append_space_ne (s : String) : s ++ " " ≠ s := by
  intro h
  have hlen := congrArg (fun t => t.data.length) h
  simp [str_data_append] at hlen

/-- C8: presenting a bearer token different from the configured secret
yields a 401 with code `invalid_auth_key`; omitting the `Authorization`
header, or presenting one whose scheme check fails, yields a 401 with code
`missing_auth_header`; in both cases the response carries
`WWW-Authenticate: Bearer realm="API Access"` and the structured error body
`{message, type:"invalid_request_error", param:null, code}`. -/
theorem c8_auth_rejections :
    (∀ secret k, k ≠ secret →
      validateApiKey secret (some ("Bearer " ++ k))
        = { isValid := false, providedKey := none,
            response := some (createAuthErrorResponse
              "Unauthorized: Invalid API Key provided." INVALID_AUTH_KEY) }) ∧
    (∀ secret, validateApiKey secret none
        = { isValid := false, providedKey := none,
            response := some (createAuthErrorResponse
              "Unauthorized: Missing or invalid Authorization header. Use \x27Bearer <YOUR_API_KEY>\x27 format."
              MISSING_AUTH_HEADER) }) ∧
    (∀ secret h, jsStartsWith (lowerAscii h) "bearer " = false →
      validateApiKey secret (some h)
        = { isValid := false, providedKey := none,
            response := some (createAuthErrorResponse
              "Unauthorized: Missing or invalid Authorization header. Use \x27Bearer <YOUR_API_KEY>\x27 format."
              MISSING_AUTH_HEADER) }) ∧
    (∀ msg code,
      (createAuthErrorResponse msg code).status = 401 ∧
      (createAuthErrorResponse msg code).wwwAuthenticate
        = some "Bearer realm=\"API Access\"" ∧
      (createAuthErrorResponse msg code).body
        = { message := msg, etype := "invalid_request_error", code := code }) ∧
    INVALID_AUTH_KEY = "invalid_auth_key" ∧
    MISSING_AUTH_HEADER = "missing_auth_header" := by
  refine ⟨?_, fun _ => rfl, ?_, fun msg code => ⟨rfl, rfl, rfl⟩, rfl, rfl⟩
  · intro secret k hk
    have hs := scheme_check_of_lower_seven "Bearer " k (by decide)
    have hd := dropChars_append "Bearer " k (by decide)
    simp [validateApiKey, hs, hd, hk]
  · intro secret h hb
    simp [validateApiKey, hb]

/-- Witness for C8: concrete secret `"s"`, wrong key `"wrong"`, malformed
header `"Token abc"`. -/
theorem c8_auth_rejections_witness :
    ("wrong" : String) ≠ "s" ∧
    validateApiKey "s" (some ("Bearer " ++ "wrong"))
      = { isValid := false, providedKey := none,
          response := some (createAuthErrorResponse
            "Unauthorized: Invalid API Key provided." INVALID_AUTH_KEY) } ∧
    validateApiKey "s" none
      = { isValid := false, providedKey := none,
          response := some (createAuthErrorResponse
            "Unauthorized: Missing or invalid Authorization header. Use \x27Bearer <YOUR_API_KEY>\x27 format."
            MISSING_AUTH_HEADER) } ∧
    jsStartsWith (lowerAscii "Token abc") "bearer " = false ∧
    validateApiKey "s" (some "Token abc")
      = { isValid := false, providedKey := none,
          response := some (createAuthErrorResponse
            "Unauthorized: Missing or invalid Authorization header. Use \x27Bearer <YOUR_API_KEY>\x27 format."
            MISSING_AUTH_HEADER) } :=
  ⟨by decide,
   c8_auth_rejections.1 "s" "wrong" (by decide),
   c8_auth_rejections.2.1 "s",
   by decide,
   c8_auth_rejections.2.2.1 "s" "Token abc" (by decide)⟩

/-- C10: the scheme check is case-insensitive — a header is accepted by the
format check iff its first seven characters, lowercased, are `"bearer "`
(so `"BEARER <secret>"` validates) — while the key comparison after the
first seven characters is exact string equality with no trimming, so a key
with a trailing space is rejected with `invalid_auth_key`. -/
theorem c10_case_insensitive_scheme_exact_key :
    (∀ h secret, (validateApiKey secret (some h)).isValid = true ↔
        (lowerAscii (takeChars 7 h) = "bearer " ∧ dropChars 7 h = secret)) ∧
    (∀ secret, validateApiKey secret (some ("BEARER " ++ secret))
        = { isValid := true, providedKey := some secret, response := none }) ∧
    (∀ secret,
      (validateApiKey secret (some ("Bearer " ++ secret ++ " "))).isValid = false ∧
      (validateApiKey secret (some ("Bearer " ++ secret ++ " "))).response
        = some (createAuthErrorResponse
            "Unauthorized: Invalid API Key provided." INVALID_AUTH_KEY)) := by
  refine ⟨?_, ?_, ?_⟩
  · intro h secret
    by_cases hb : jsStartsWith (lowerAscii h) "bearer " = true
    · have hb2 := (scheme_check_iff h).mp hb
      by_cases hk : dropChars 7 h = secret
      · simp [validateApiKey, hb, hk, hb2]
      · simp [validateApiKey, hb, hk]
    · have hb2 : ¬ lowerAscii (takeChars 7 h) = "bearer " :=
        fun hlow => hb ((scheme_check_iff h).mpr hlow)
      simp [validateApiKey, hb, hb2]
  · intro secret
    have hs := scheme_check_of_lower_seven "BEARER " secret (by decide)
    have hd := dropChars_append "BEARER " secret (by decide)
    simp [validateApiKey, hs, hd]
  · intro secret
    have hs : jsStartsWith (lowerAscii (("Bearer " ++ secret) ++ " ")) "bearer " = true := by
      have : ("Bearer " ++ secret) ++ " " = "Bearer " ++ (secret ++ " ") := by
        rw [String.ext_iff]
        simp [str_data_append]
      rw [this]
      exact scheme_check_of_lower_seven "Bearer " (secret ++ " ") (by decide)
    have hd : dropChars 7 (("Bearer " ++ secret) ++ " ") = secret ++ " " := by
      have : ("Bearer " ++ secret) ++ " " = "Bearer " ++ (secret ++ " ") := by
        rw [String.ext_iff]
        simp [str_data_append]
      rw [this]
      exact dropChars_append "Bearer " (secret ++ " ") (by decide)
    constructor
    · simp [validateApiKey, hs, hd, str_append_space_ne]
    · simp [validateApiKey, hs, hd, str_append_space_ne]

/-! ### C1: retry exhaustion -/

theorem rotatorTake_length (n : Nat) (r : Rotator) :
    (rotatorTake n r).1.length = n := by
  induction n generalizing r with
  | zero => rfl
  | succ k ih => simp [rotatorTake, ih]

theorem dispatchGo_fail {E A : Type} (attempt : String → Except E A)
    (hf : ∀ c, (attempt c).isOk = false) (n : Nat) :
    ∀ (c : String) (r : Rotator),
      (dispatchGo attempt c r n).2.1 = c :: (rotatorTake n r).1 ∧
      ∃ lc, (c :: (rotatorTake n r).1).getLast? = some lc ∧
        (dispatchGo attempt c r n).1 = attempt lc := by
  induction n with
  | zero =>
      intro c r
      exact ⟨rfl, c, rfl, rfl⟩
  | succ k ih =>
      intro c r
      cases ha : attempt c with
      | ok a =>
          have hok : (attempt c).isOk = true := by rw [ha]; rfl
          rw [hf c] at hok
          exact Bool.noConfusion hok
      | error e =>
          rcases ih (getNextReplicateClient r).1 (getNextReplicateClient r).2 with
            ⟨hused, lc, hlast, hres⟩
          constructor
          · show (dispatchGo attempt c r (k + 1)).2.1 = _
            simp only [dispatchGo, ha, rotatorTake]
            rw [hused]
          · refine ⟨lc, ?_, ?_⟩
            · show ((c :: (rotatorTake (k + 1) r).1)).getLast? = some lc
              have : (rotatorTake (k + 1) r).1
                  = (getNextReplicateClient r).1 ::
                    (rotatorTake k (getNextReplicateClient r).2).1 := by
                simp [rotatorTake]
              rw [this, List.getLast?_cons_cons]
              exact hlast
            · show (dispatchGo attempt c r (k + 1)).1 = attempt lc
              simp only [dispatchGo, ha]
              exact hres

/-- C1: with a pool of `N ≥ 1` credentials and attempts that always fail,
both `streamModelResponse` and `getModelResponse` perform exactly
`min(N, 3) + 1` attempts, the clients attempted are precisely the first
`min(N, 3) + 1` clients handed out by the rotator (a fresh client before
each retry), and the result surfaced to the caller is exactly the error of
the last attempt — no default or synthesized response. -/
theorem c1_retry_exhaustion {E : Type}
    (attemptS : String → Except E (List ReplicateEvent))
    (attemptB : String → Except E Prediction) (r : Rotator)
    (hN : 1 ≤ r.keys.length)
    (hfS : ∀ c, (attemptS c).isOk = false)
    (hfB : ∀ c, (attemptB c).isOk = false) :
    ((streamModelResponse attemptS r).2.1
        = (rotatorTake (min r.keys.length 3 + 1) r).1 ∧
      (streamModelResponse attemptS r).2.1.length = min r.keys.length 3 + 1 ∧
      ∃ lc e, (streamModelResponse attemptS r).2.1.getLast? = some lc ∧
        attemptS lc = .error e ∧
        (streamModelResponse attemptS r).1 = .error e) ∧
    ((getModelResponse attemptB r).2.1
        = (rotatorTake (min r.keys.length 3 + 1) r).1 ∧
      (getModelResponse attemptB r).2.1.length = min r.keys.length 3 + 1 ∧
      ∃ lc e, (getModelResponse attemptB r).2.1.getLast? = some lc ∧
        attemptB lc = .error e ∧
        (getModelResponse attemptB r).1 = .error e) := by
  have hrot : (rotatorTake (min r.keys.length 3 + 1) r).1
      = (getNextReplicateClient r).1 ::
        (rotatorTake (min r.keys.length 3) (getNextReplicateClient r).2).1 := by
    simp [rotatorTake]
  constructor
  · rcases dispatchGo_fail attemptS hfS (min r.keys.length 3)
        (getNextReplicateClient r).1 (getNextReplicateClient r).2 with
      ⟨hused, lc, hlast, hres⟩
    have husedS : (streamModelResponse attemptS r).2.1
        = (rotatorTake (min r.keys.length 3 + 1) r).1 := by
      show (dispatchGo attemptS (getNextReplicateClient r).1
        (getNextReplicateClient r).2 (maxRetries r.keys.length)).2.1 = _
      rw [hrot]
      exact hused
    refine ⟨husedS, ?_, ?_⟩
    · rw [husedS, rotatorTake_length]
    · cases he : attemptS lc with
      | ok a =>
          have hok : (attemptS lc).isOk = true := by rw [he]; rfl
          rw [hfS lc] at hok
          exact Bool.noConfusion hok
      | error e =>
          refine ⟨lc, e, ?_, he, ?_⟩
          · rw [husedS, hrot]
            exact hlast
          · show (dispatchGo attemptS (getNextReplicateClient r).1
              (getNextReplicateClient r).2 (maxRetries r.keys.length)).1 = .error e
            rw [show maxRetries r.keys.length = min r.keys.length 3 from rfl, hres, he]
  · rcases dispatchGo_fail attemptB hfB (min r.keys.length 3)
        (getNextReplicateClient r).1 (getNextReplicateClient r).2 with
      ⟨hused, lc, hlast, hres⟩
    have husedB : (getModelResponse attemptB r).2.1
        = (rotatorTake (min r.keys.length 3 + 1) r).1 := by
      show (dispatchGo attemptB (getNextReplicateClient r).1
        (getNextReplicateClient r).2 (maxRetries r.keys.length)).2.1 = _
      rw [hrot]
      exact hused
    refine ⟨husedB, ?_, ?_⟩
    · rw [husedB, rotatorTake_length]
    · cases he : attemptB lc with
      | ok a =>
          have hok : (attemptB lc).isOk = true := by rw [he]; rfl
          rw [hfB lc] at hok
          exact Bool.noConfusion hok
      | error e =>
          refine ⟨lc, e, ?_, he, ?_⟩
          · rw [husedB, hrot]
            exact hlast
          · show ((dispatchGo attemptB (getNextReplicateClient r).1
              (getNextReplicateClient r).2 (maxRetries r.keys.length)).1).map
                Prediction.toOutput = .error e
            rw [show maxRetries r.keys.length = min r.keys.length 3 from rfl, hres, he]
            rfl

/-- Always-failing concrete attempts and a two-key pool for the C1
witness. -/
def failS : String → Except Nat (List ReplicateEvent) := fun _ => .error 7

/-- See `failS`. -/
def failB : String → Except Nat Prediction := fun _ => .error 7

/-- See `failS`. -/
def pool2 : Rotator := ⟨["k1", "k2"], 0⟩

/-- Witness for C1: a two-key pool and attempts that always fail with
error `7`; both operations make `min(2,3)+1 = 3` attempts using the first
three clients handed out by the rotator and surface the last error. -/
theorem c1_retry_exhaustion_witness :
    1 ≤ pool2.keys.length ∧
    (((streamModelResponse failS pool2).2.1
        = (rotatorTake (min pool2.keys.length 3 + 1) pool2).1 ∧
      (streamModelResponse failS pool2).2.1.length = min pool2.keys.length 3 + 1 ∧
      ∃ lc e, (streamModelResponse failS pool2).2.1.getLast? = some lc ∧
        failS lc = .error e ∧ (streamModelResponse failS pool2).1 = .error e) ∧
     ((getModelResponse failB pool2).2.1
        = (rotatorTake (min pool2.keys.length 3 + 1) pool2).1 ∧
      (getModelResponse failB pool2).2.1.length = min pool2.keys.length 3 + 1 ∧
      ∃ lc e, (getModelResponse failB pool2).2.1.getLast? = some lc ∧
        failB lc = .error e ∧ (getModelResponse failB pool2).1 = .error e)) :=
  ⟨by decide,
    c1_retry_exhaustion failS failB pool2 (by decide) (fun _ => rfl) (fun _ => rfl)⟩

/-! ### C5: missing `done` events and error surfacing -/

theorem stepChunks_not_done (encLen : String → Nat) (id model : String)
    (tpt : Nat) (clock : Nat → Nat) (st : EncState) (k : Nat)
    (e : ReplicateEvent) (he : e ≠ .done) :
    StreamItem.doneMarker ∉ (stepChunks encLen id model tpt clock st k e).2.2 ∧
    ∀ c ∈ chunksOf (stepChunks encLen id model tpt clock st k e).2.2,
      c.finish_reason = none ∧ c.usage = none := by
  cases e with
  | done => exact absurd rfl he
  | output s =>
      cases hf : st.isFirstEvent <;>
        simp [stepChunks, hf, chunksOf, createSSEChunk]
  | outputNonString =>
      cases hf : st.isFirstEvent <;>
        simp [stepChunks, hf, chunksOf, createSSEChunk]
  | other =>
      cases hf : st.isFirstEvent <;>
        simp [stepChunks, hf, chunksOf, createSSEChunk]

theorem encodeEvents_no_done (encLen : String → Nat) (id model : String)
    (tpt : Nat) (clock : Nat → Nat) (events : List ReplicateEvent) :
    ReplicateEvent.done ∉ events →
    ∀ (st : EncState) (k : Nat),
      StreamItem.doneMarker ∉ (encodeEvents encLen id model tpt clock st k events).1 ∧
      ∀ c ∈ chunksOf (encodeEvents encLen id model tpt clock st k events).1,
        c.finish_reason = none ∧ c.usage = none := by
  induction events with
  | nil =>
      intro _ st k
      simp [encodeEvents, chunksOf]
  | cons e rest ih =>
      intro hnd st k
      have he : e ≠ .done := by
        rintro rfl
        exact hnd (List.mem_cons_self _ _)
      have hrest : ReplicateEvent.done ∉ rest :=
        fun h => hnd (List.mem_cons_of_mem e h)
      rcases stepChunks_not_done encLen id model tpt clock st k e he with ⟨h1, h2⟩
      rcases ih hrest (stepChunks encLen id model tpt clock st k e).1
          (stepChunks encLen id model tpt clock st k e).2.1 with ⟨h3, h4⟩
      constructor
      · show StreamItem.doneMarker ∉ _ ++ _
        rw [List.mem_append]
        rintro (h | h)
        · exact h1 h
        · exact h3 h
      · show ∀ c ∈ chunksOf (_ ++ _), _
        rw [chunksOf, List.filterMap_append]
        intro c hc
        rcases List.mem_append.mp hc with h | h
        · exact h2 c h
        · exact h4 c h

/-- C5 counterexample: the upstream iterator yields `[output "Hi"]` and
then completes normally without ever producing a `done` event.  The claim
says the encoder must surface an error on the SSE stream; in fact the
handler falls through the loop and calls `controller.close()` — a silent
clean close with no `[DONE]` marker and no error. -/
theorem c5_counterexample :
    (handleStreamResponse String.length "id0" "m0" ⟨"p", 64000, "s", 0.5, none⟩
        (fun _ => 0) [.output "Hi"] .completed).2 = .closedClean ∧
    StreamEnd.closedClean ≠ StreamEnd.erroredOut ∧
    StreamItem.doneMarker ∉
      (handleStreamResponse String.length "id0" "m0" ⟨"p", 64000, "s", 0.5, none⟩
        (fun _ => 0) [.output "Hi"] .completed).1 :=
  ⟨rfl, by decide, by decide⟩

/-- C5 (amended): if the upstream iterator throws, the encoder surfaces the
error to the stream consumer (`controller.error`); but if it terminates
normally without ever producing a `done` event the stream is closed cleanly
— no error, no terminal `stop` chunk, no `[DONE]` marker (the original
claim wrongly requires an error in this case too: see the counterexample).
Events of any type other than `output`-with-string-payload and `done` are
ignored: they emit no chunk beyond the one-time role announcement and leave
the content accumulator unchanged. -/
theorem c5_no_done_handling (encLen : String → Nat) (id model : String)
    (input : ModelInput) (clock : Nat → Nat) (events : List ReplicateEvent)
    (upEnd : UpstreamEnd) (hnd : ReplicateEvent.done ∉ events) :
    (handleStreamResponse encLen id model input clock events .errored).2
      = .erroredOut ∧
    (handleStreamResponse encLen id model input clock events .completed).2
      = .closedClean ∧
    StreamItem.doneMarker ∉
      (handleStreamResponse encLen id model input clock events upEnd).1 ∧
    (∀ c ∈ chunksOf (handleStreamResponse encLen id model input clock events upEnd).1,
      c.finish_reason = none ∧ c.usage = none) ∧
    (∀ tpt st k,
      (stepChunks encLen id model tpt clock st k .other).2.2
        = (if st.isFirstEvent then
            [.chunk (createSSEChunk (clock k) id model none (some "assistant") none none)]
           else []) ∧
      (stepChunks encLen id model tpt clock st k .other).1.completionContent
        = st.completionContent ∧
      (stepChunks encLen id model tpt clock st k .outputNonString).2.2
        = (if st.isFirstEvent then
            [.chunk (createSSEChunk (clock k) id model none (some "assistant") none none)]
           else []) ∧
      (stepChunks encLen id model tpt clock st k .outputNonString).1.completionContent
        = st.completionContent) := by
  rcases encodeEvents_no_done encLen id model
      (encLen input.prompt +
        (if input.system_prompt ≠ "" then encLen input.system_prompt else 0))
      clock events hnd ⟨true, ""⟩ 0 with ⟨h1, h2⟩
  refine ⟨rfl, rfl, h1, h2, ?_⟩
  intro tpt st k
  cases hf : st.isFirstEvent <;> simp [stepChunks, hf]

/-- Witness for C5 (amended): concrete events `[output "Hi", other]` with
no `done`; clean completion closes the stream cleanly, a thrown error is
surfaced, and no `[DONE]` marker or `stop` chunk is emitted. -/
theorem c5_no_done_handling_witness :
    (handleStreamResponse String.length "idw" "mw" ⟨"p", 64000, "s", 0.5, none⟩
        (fun k => k) [.output "Hi", .other] .errored).2 = .erroredOut ∧
    (handleStreamResponse String.length "idw" "mw" ⟨"p", 64000, "s", 0.5, none⟩
        (fun k => k) [.output "Hi", .other] .completed).2 = .closedClean ∧
    StreamItem.doneMarker ∉
      (handleStreamResponse String.length "idw" "mw" ⟨"p", 64000, "s", 0.5, none⟩
        (fun k => k) [.output "Hi", .other] .completed).1 ∧
    (∀ c ∈ chunksOf (handleStreamResponse String.length "idw" "mw"
        ⟨"p", 64000, "s", 0.5, none⟩ (fun k => k) [.output "Hi", .other] .completed).1,
      c.finish_reason = none ∧ c.usage = none) ∧
    (∀ tpt st k,
      (stepChunks String.length "idw" "mw" tpt (fun k => k) st k .other).2.2
        = (if st.isFirstEvent then
            [.chunk (createSSEChunk k "idw" "mw" none (some "assistant") none none)]
           else []) ∧
      (stepChunks String.length "idw" "mw" tpt (fun k => k) st k .other).1.completionContent
        = st.completionContent ∧
      (stepChunks String.length "idw" "mw" tpt (fun k => k) st k .outputNonString).2.2
        = (if st.isFirstEvent then
            [.chunk (createSSEChunk k "idw" "mw" none (some "assistant") none none)]
           else []) ∧
      (stepChunks String.length "idw" "mw" tpt (fun k => k) st k .outputNonString).1.completionContent
        = st.completionContent) :=
  c5_no_done_handling String.length "idw" "mw" ⟨"p", 64000, "s", 0.5, none⟩
    (fun k => k) [.output "Hi", .other] .completed (by decide)

/-! ### C4: per-chunk constant fields and delta keys -/

/-- Statement-side predicate: the header fields every chunk of one response
must share. -/
def chunkHeaderOK (id model : String) (c : SSEChunk) : Prop :=
  c.id = id ∧ c.model = model ∧ c.object = "chat.completion.chunk" ∧ c.index = 0

/-- Statement-side predicate: the delta of an emitted chunk is the role
announcement, a non-empty content payload of some `output` event of the
response, or empty. -/
def deltaOK (events : List ReplicateEvent) (c : SSEChunk) : Prop :=
  c.delta = { role := some "assistant", content := none } ∨
  (∃ s, s ≠ "" ∧ c.delta = { role := none, content := some s } ∧
    ReplicateEvent.output s ∈ events) ∨
  c.delta = { role := none, content := none }

theorem chunksOf_append (a b : List StreamItem) :
    chunksOf (a ++ b) = chunksOf a ++ chunksOf b := by
  simp [chunksOf]

theorem deltaOK_mono {e : ReplicateEvent} {rest : List ReplicateEvent}
    {c : SSEChunk} (h : deltaOK rest c) : deltaOK (e :: rest) c := by
  rcases h with h | ⟨s, hs, hd, hm⟩ | h
  · exact Or.inl h
  · exact Or.inr (Or.inl ⟨s, hs, hd, List.mem_cons_of_mem _ hm⟩)
  · exact Or.inr (Or.inr h)

theorem stepChunks_spec (encLen : String → Nat) (id model : String)
    (tpt : Nat) (clock : Nat → Nat) (st : EncState) (k : Nat)
    (e : ReplicateEvent) :
    (stepChunks encLen id model tpt clock st k e).2.1
      = k + (chunksOf (stepChunks encLen id model tpt clock st k e).2.2).length ∧
    (∀ c ∈ chunksOf (stepChunks encLen id model tpt clock st k e).2.2,
      chunkHeaderOK id model c) ∧
    (chunksOf (stepChunks encLen id model tpt clock st k e).2.2).map SSEChunk.created
      = (List.range' k
          (chunksOf (stepChunks encLen id model tpt clock st k e).2.2).length).map clock ∧
    (∀ c ∈ chunksOf (stepChunks encLen id model tpt clock st k e).2.2,
      c.delta = { role := some "assistant", content := none } ∨
      (∃ s, s ≠ "" ∧ c.delta = { role := none, content := some s } ∧
        e = ReplicateEvent.output s) ∨
      c.delta = { role := none, content := none }) := by
  obtain ⟨fst, cc⟩ := st
  cases e with
  | output s =>
      cases fst
      · refine ⟨rfl, ?_, rfl, ?_⟩
        · simp [stepChunks, chunksOf, createSSEChunk, chunkHeaderOK, strTruthy]
        · intro c hc
          simp [stepChunks, chunksOf] at hc
          subst hc
          by_cases hs : s = ""
          · exact Or.inr (Or.inr (by simp [createSSEChunk, strTruthy, hs]))
          · exact Or.inr (Or.inl ⟨s, hs, by simp [createSSEChunk, strTruthy, hs], rfl⟩)
      · refine ⟨rfl, ?_, rfl, ?_⟩
        · simp [stepChunks, chunksOf, createSSEChunk, chunkHeaderOK, strTruthy]
        · intro c hc
          simp [stepChunks, chunksOf] at hc
          rcases hc with hc | hc
          · exact Or.inl (by simp [hc, createSSEChunk, strTruthy])
          · subst hc
            by_cases hs : s = ""
            · exact Or.inr (Or.inr (by simp [createSSEChunk, strTruthy, hs]))
            · exact Or.inr (Or.inl ⟨s, hs, by simp [createSSEChunk, strTruthy, hs], rfl⟩)
  | done =>
      cases fst
      · refine ⟨rfl, ?_, rfl, ?_⟩
        · simp [stepChunks, chunksOf, createSSEChunk, chunkHeaderOK, strTruthy]
        · intro c hc
          simp [stepChunks, chunksOf] at hc
          subst hc
          exact Or.inr (Or.inr (by simp [createSSEChunk, strTruthy]))
      · refine ⟨rfl, ?_, rfl, ?_⟩
        · simp [stepChunks, chunksOf, createSSEChunk, chunkHeaderOK, strTruthy]
        · intro c hc
          simp [stepChunks, chunksOf] at hc
          rcases hc with hc | hc
          · exact Or.inl (by simp [hc, createSSEChunk, strTruthy])
          · subst hc
            exact Or.inr (Or.inr (by simp [createSSEChunk, strTruthy]))
  | outputNonString =>
      cases fst
      · exact ⟨rfl, by simp [stepChunks, chunksOf], rfl, by simp [stepChunks, chunksOf]⟩
      · refine ⟨rfl, ?_, rfl, ?_⟩
        · simp [stepChunks, chunksOf, createSSEChunk, chunkHeaderOK, strTruthy]
        · intro c hc
          simp [stepChunks, chunksOf] at hc
          exact Or.inl (by simp [hc, createSSEChunk, strTruthy])
  | other =>
      cases fst
      · exact ⟨rfl, by simp [stepChunks, chunksOf], rfl, by simp [stepChunks, chunksOf]⟩
      · refine ⟨rfl, ?_, rfl, ?_⟩
        · simp [stepChunks, chunksOf, createSSEChunk, chunkHeaderOK, strTruthy]
        · intro c hc
          simp [stepChunks, chunksOf] at hc
          exact Or.inl (by simp [hc, createSSEChunk, strTruthy])

theorem encodeEvents_spec (encLen : String → Nat) (id model : String)
    (tpt : Nat) (clock : Nat → Nat) (events : List ReplicateEvent) :
    ∀ (st : EncState) (k : Nat),
      (encodeEvents encLen id model tpt clock st k events).2.2
        = k + (chunksOf (encodeEvents encLen id model tpt clock st k events).1).length ∧
      (∀ c ∈ chunksOf (encodeEvents encLen id model tpt clock st k events).1,
        chunkHeaderOK id model c) ∧
      (chunksOf (encodeEvents encLen id model tpt clock st k events).1).map SSEChunk.created
        = (List.range' k
            (chunksOf (encodeEvents encLen id model tpt clock st k events).1).length).map
              clock ∧
      (∀ c ∈ chunksOf (encodeEvents encLen id model tpt clock st k events).1,
        deltaOK events c) := by
  induction events with
  | nil =>
      intro st k
      simp [encodeEvents, chunksOf]
  | cons e rest ih =>
      intro st k
      obtain ⟨hk1, hh1, hc1, hd1⟩ := stepChunks_spec encLen id model tpt clock st k e
      obtain ⟨hk2, hh2, hc2, hd2⟩ :=
        ih (stepChunks encLen id model tpt clock st k e).1
           (stepChunks encLen id model tpt clock st k e).2.1
      have hitems : (encodeEvents encLen id model tpt clock st k (e :: rest)).1
          = (stepChunks encLen id model tpt clock st k e).2.2 ++
            (encodeEvents encLen id model tpt clock
              (stepChunks encLen id model tpt clock st k e).1
              (stepChunks encLen id model tpt clock st k e).2.1 rest).1 := rfl
      have hkk : (encodeEvents encLen id model tpt clock st k (e :: rest)).2.2
          = (encodeEvents encLen id model tpt clock
              (stepChunks encLen id model tpt clock st k e).1
              (stepChunks encLen id model tpt clock st k e).2.1 rest).2.2 := rfl
      refine ⟨?_, ?_, ?_, ?_⟩
      · rw [hkk, hk2, hitems, chunksOf_append, List.length_append, hk1, Nat.add_assoc]
      · intro c hc
        rw [hitems, chunksOf_append] at hc
        rcases List.mem_append.mp hc with h | h
        · exact hh1 c h
        · exact hh2 c h
      · rw [hitems, chunksOf_append, List.map_append, List.length_append, hc1, hc2, hk1,
          ← List.map_append, List.range'_append_1]
        exact congrArg (List.map clock)
          (congrArg (fun n => List.range' k n) (Nat.add_comm _ _))
      · intro c hc
        rw [hitems, chunksOf_append] at hc
        rcases List.mem_append.mp hc with h | h
        · rcases hd1 c h with h1 | ⟨s, hs, hd, he⟩ | h1
          · exact Or.inl h1
          · exact Or.inr (Or.inl ⟨s, hs, hd, he ▸ List.mem_cons_self _ _⟩)
          · exact Or.inr (Or.inr h1)
        · exact deltaOK_mono (hd2 c h)

/-- C4 counterexample: the response for events `[output "", done]` under
the clock `k ↦ k` (the wall clock advances one second between chunk
creations).  The three emitted chunks carry `created` values `0`, `1`, `2`
— not identical and not fixed at response start — refuting the first half
of the claim; and its second chunk is created with the non-null content
argument `""` yet carries an empty `delta` (JavaScript truthiness drops the
key), refuting the delta rule. -/
theorem c4_counterexample :
    (¬ ∀ c ∈ chunksOf (handleStreamResponse String.length "id0" "m0"
          ⟨"p", 64000, "s", 0.5, none⟩ (fun k => k) [.output "", .done] .completed).1,
        ∀ c2 ∈ chunksOf (handleStreamResponse String.length "id0" "m0"
          ⟨"p", 64000, "s", 0.5, none⟩ (fun k => k) [.output "", .done] .completed).1,
          c.created = c2.created) ∧
    (chunksOf (handleStreamResponse String.length "id0" "m0"
        ⟨"p", 64000, "s", 0.5, none⟩ (fun k => k) [.output "", .done] .completed).1)[1]?
      = some (createSSEChunk 1 "id0" "m0" (some "") none none none) ∧
    (createSSEChunk 1 "id0" "m0" (some "") none none none).delta
      = { role := none, content := none } ∧
    (some "" : Option String) ≠ none := by
  refine ⟨?_, by decide, by decide, by decide⟩
  decide

/-- C4 (amended): across all emitted SSE chunks of one streaming response,
`id`, `model` (and `object`, `index`) are identical and equal to values
fixed at response start; but `created` equals the clock reading at the
moment each individual chunk is built (`Date.now()` is sampled inside
`createSSEChunk`), so chunks built in different seconds carry different
values — it is not fixed at response start; and `delta` contains exactly
the keys among `{role, content}` whose argument is truthy (non-null *and*
non-empty): every delta is the role announcement, a non-empty content
payload of one of the upstream `output` events, or empty. -/
theorem c4_chunk_fields (encLen : String → Nat) (id model : String)
    (input : ModelInput) (clock : Nat → Nat) (events : List ReplicateEvent)
    (upEnd : UpstreamEnd) :
    (∀ c ∈ chunksOf (handleStreamResponse encLen id model input clock events upEnd).1,
      chunkHeaderOK id model c) ∧
    (chunksOf (handleStreamResponse encLen id model input clock events upEnd).1).map
        SSEChunk.created
      = (List.range' 0
          (chunksOf
            (handleStreamResponse encLen id model input clock events upEnd).1).length).map
          clock ∧
    (∀ c ∈ chunksOf (handleStreamResponse encLen id model input clock events upEnd).1,
      deltaOK events c) := by
  obtain ⟨-, hh, hc, hd⟩ := encodeEvents_spec encLen id model
    (encLen input.prompt +
      (if input.system_prompt ≠ "" then encLen input.system_prompt else 0))
    clock events ⟨true, ""⟩ 0
  exact ⟨hh, hc, hd⟩

/-- Witness for C4 (amended): a concrete streaming response; every chunk
satisfies the header, created-clock and delta rules. -/
theorem c4_chunk_fields_witness :
    (∀ c ∈ chunksOf (handleStreamResponse String.length "idw" "mw"
        ⟨"p", 64000, "s", 0.5, none⟩ (fun k => k) [.output "Hi", .done] .completed).1,
      chunkHeaderOK "idw" "mw" c) ∧
    (chunksOf (handleStreamResponse String.length "idw" "mw"
        ⟨"p", 64000, "s", 0.5, none⟩ (fun k => k) [.output "Hi", .done] .completed).1).map
        SSEChunk.created
      = (List.range' 0
          (chunksOf (handleStreamResponse String.length "idw" "mw"
            ⟨"p", 64000, "s", 0.5, none⟩ (fun k => k)
            [.output "Hi", .done] .completed).1).length).map (fun k => k) ∧
    (∀ c ∈ chunksOf (handleStreamResponse String.length "idw" "mw"
        ⟨"p", 64000, "s", 0.5, none⟩ (fun k => k) [.output "Hi", .done] .completed).1,
      deltaOK [.output "Hi", .done] c) :=
  c4_chunk_fields String.length "idw" "mw" ⟨"p", 64000, "s", 0.5, none⟩
    (fun k => k) [.output "Hi", .done] .completed

/-- Witness for C6 (amended): the iff instantiated at a request with no
`messages` array. -/
theorem c6_invalid_messages_iff_witness :
    handleChatCompletion "proxy" ⟨none, none, none⟩
        = .errorResp 400 "invalid_request_error" INVALID_MESSAGES
      ↔ rejectedBody ⟨none, none, none⟩ = true :=
  c6_invalid_messages_iff "proxy" ⟨none, none, none⟩

/-- Witness for C10: the characterization instantiated at the secret `"s"`;
the upper-case scheme is accepted with the exact key, and a trailing-space
key fails. -/
theorem c10_case_insensitive_scheme_exact_key_witness :
    ((validateApiKey "s" (some "BEARER s")).isValid = true ↔
      (lowerAscii (takeChars 7 "BEARER s") = "bearer " ∧ dropChars 7 "BEARER s" = "s")) ∧
    validateApiKey "s" (some ("BEARER " ++ "s"))
      = { isValid := true, providedKey := some "s", response := none } ∧
    (validateApiKey "s" (some ("Bearer " ++ "s" ++ " "))).isValid = false :=
  ⟨c10_case_insensitive_scheme_exact_key.1 "BEARER s" "s",
   c10_case_insensitive_scheme_exact_key.2.1 "s",
   (c10_case_insensitive_scheme_exact_key.2.2 "s").1⟩

end ReplicateProxy
